import Mathlib

/-! # flapi: documentation synthesis and dynamic request dispatch

A shallow embedding of `src/open_api_doc_generator.cpp` (the OpenAPI document
generator) and of `APIServer::handleDynamicRequest` / `APIServer::setupRoutes`
from `src/api_server.cpp`, followed by the properties established about them.

Conventions of the embedding:

* `std::string` is `String`; `std::vector` is `List`; `int` is `Int` (the code
  performs no arithmetic on the integers it copies).
* A `YAML::Node` is the tree `Node`.  The generator only ever assigns a node
  that it does not mutate afterwards, so the reference semantics of yaml-cpp
  handles coincide with the value semantics used here.
* A C++ exception is an `Except.error`; a function that can throw returns
  `Except Failure _`.
-/

namespace flapi

/-! ## The document tree (yaml-cpp as used by the generator) -/

/-- Exceptions that can travel through the generator. -/
inductive Failure where
  /-- an exception thrown by `DatabaseManager::describeSelectQuery` -/
  | describe (what : String)
  /-- the exception `YAML::BadSubscript`: `operator[]` applied to a scalar -/
  | badSubscript
  /-- the exception `YAML::BadPushback`: `push_back` applied to a scalar or a map -/
  | badPushback
  /-- a use of yaml-cpp outside the fragment modelled here (subscripting a
  sequence by name or past its end); every result below is exhibited as
  `Except.ok`, so the generator never reaches it -/
  | unmodelled
  deriving DecidableEq, Repr

/-- A defined `YAML::Node`: null, a scalar (yaml-cpp stores every scalar as its
text), a sequence, or a map in insertion order.  Every key the generator
writes is a string scalar, so map keys are strings. -/
inductive Node where
  | null : Node
  | scalar (value : String) : Node
  | seq (items : List Node) : Node
  | map (entries : List (String × Node)) : Node
  deriving Repr

/-- The argument of `operator[]`: a string key or an integer index. -/
inductive Key where
  | name (k : String)
  | index (i : Nat)
  deriving DecidableEq, Repr

/-- Value stored under `k` in the entries of a map, if any. -/
def entriesFind (k : String) : List (String × Node) → Option Node
  | [] => none
  | (k', v) :: rest => if k' = k then some v else entriesFind k rest

/-- Entries of a map after `m[k] = v`: an existing key keeps its position and
gets the new value, a new key is appended. -/
def entriesPut (k : String) (v : Node) : List (String × Node) → List (String × Node)
  | [] => [(k, v)]
  | (k', v') :: rest => if k' = k then (k', v) :: rest else (k', v') :: entriesPut k v rest

/-- Entries of a map with key `k` removed. -/
def entriesErase (k : String) : List (String × Node) → List (String × Node)
  | [] => []
  | (k', v') :: rest => if k' = k then entriesErase k rest else (k', v') :: entriesErase k rest

namespace Node

/-- Read-only lookup `n[k]` of a string key: the value stored under `k` in a
map, and nothing for a missing key or a node that is not a map. -/
def find? (n : Node) (k : String) : Option Node :=
  match n with
  | map entries => entriesFind k entries
  | _ => none

/-- Read-only lookup along a path of string keys. -/
def findPath? (n : Node) : List String → Option Node
  | [] => some n
  | k :: ks => match n.find? k with
    | some c => findPath? c ks
    | none => none

/-- The node a mutable `n[key]` refers to.  A null node turns into a map on a
string key, and a key that is missing yields a fresh node (null here, as it is
always assigned or pushed to before the statement ends). -/
def child (n : Node) (key : Key) : Except Failure Node :=
  match n, key with
  | null, .name _ => .ok null
  | map entries, .name k => .ok ((entriesFind k entries).getD null)
  | seq items, .index i =>
    match items.get? i with
    | some c => .ok c
    | none => .error .unmodelled
  | scalar _, _ => .error .badSubscript
  | _, _ => .error .unmodelled

/-- Store `c` as the node `n[key]` refers to. -/
def setChild (n : Node) (key : Key) (c : Node) : Except Failure Node :=
  match n, key with
  | null, .name k => .ok (map [(k, c)])
  | map entries, .name k => .ok (map (entriesPut k c entries))
  | seq items, .index i =>
    if i < items.length then .ok (seq (items.set i c)) else .error .unmodelled
  | scalar _, _ => .error .badSubscript
  | _, _ => .error .unmodelled

/-- Run `f` on the node reached by the subscript chain `n[k₁][k₂]...` and store
its result there. -/
def modifyAt (n : Node) : List Key → (Node → Except Failure Node) → Except Failure Node
  | [], f => f n
  | key :: rest, f => do
    let c ← n.child key
    let c' ← modifyAt c rest f
    n.setChild key c'

/-- The statement `n[k₁][k₂]... = v`. -/
def assign (n : Node) (path : List Key) (v : Node) : Except Failure Node :=
  n.modifyAt path (fun _ => .ok v)

/-- The call `n.push_back(v)`: a null node becomes a one-element sequence, a
sequence grows at its end, anything else throws `BadPushback`. -/
def pushBack (n : Node) (v : Node) : Except Failure Node :=
  match n with
  | null => .ok (seq [v])
  | seq items => .ok (seq (items ++ [v]))
  | _ => .error .badPushback

/-- The statement `n[k₁][k₂]....push_back(v)`. -/
def pushBackAt (n : Node) (path : List Key) (v : Node) : Except Failure Node :=
  n.modifyAt path (fun c => c.pushBack v)

/-- A node with the string key `k` removed (maps only). -/
def erase (n : Node) (k : String) : Node :=
  match n with
  | map entries => map (entriesErase k entries)
  | other => other

end Node

/-- Text of a `bool` as yaml-cpp encodes it. -/
def encodeBool (b : Bool) : String := if b then "true" else "false"

/-- Text of an `int` as yaml-cpp encodes it (decimal, through a stream). -/
def encodeInt (i : Int) : String := toString i

/-! ## Configuration types -/

/-- Modelled from the spec: `RequestFieldConfig` is declared in a header that
is not under `src/`; the fields are those `generateParameters` reads (spec §3,
`requestFields`). -/
structure RequestFieldConfig where
  fieldName : String
  fieldIn : String
  description : String
  required : Bool
  defaultValue : String
  deriving DecidableEq, Repr

/-- Modelled from the spec: `rateLimitPolicy` of spec §3, with the member names
`generatePathItem` reads. -/
structure RateLimitConfig where
  enabled : Bool
  max : Int
  interval : Int
  deriving DecidableEq, Repr

/-- Modelled from the spec: `authPolicy` of spec §3, with the member names
`generatePathItem` reads; `type` is a free string in the code. -/
structure AuthConfig where
  enabled : Bool
  type : String
  deriving DecidableEq, Repr

/-- Modelled from the spec: `EndpointConfig` (spec §3, EndpointDefinition) is
declared in a header that is not under `src/`; the fields are those the two
source files read. -/
structure EndpointConfig where
  urlPath : String
  method : String
  requestFields : List RequestFieldConfig
  rate_limit : RateLimitConfig
  auth : AuthConfig
  deriving DecidableEq, Repr

/-- Modelled from the spec: the part of `ConfigManager` that `generateDoc`
reads: project name, project description and the endpoint catalog in
configuration order. -/
structure ConfigManager where
  getProjectName : String
  getProjectDescription : String
  getEndpoints : List EndpointConfig
  deriving Repr

/-- The part of the `crow::App` that `generateDoc` reads. -/
structure App where
  ssl_used : Bool
  port : Nat
  deriving DecidableEq, Repr

/-- The schema-description collaborator `DatabaseManager::describeSelectQuery`,
which is not under `src/`: it returns a node or throws. -/
abbrev Describe := EndpointConfig → Except Failure Node

/-! ## `open_api_doc_generator.cpp` -/

/-- One iteration of the loop of `generateParameters` (lines 89-105): build
the parameter of `field` and push it onto `parameters`. -/
def addParameter (parameters : Node) (field : RequestFieldConfig) : Except Failure Node := do
  let parameter := Node.null
  let parameter ← parameter.assign [.name "name"] (.scalar field.fieldName)
  let parameter ← parameter.assign [.name "in"] (.scalar field.fieldIn)
  let parameter ← parameter.assign [.name "required"] (.scalar (encodeBool field.required))
  let parameter ← parameter.assign [.name "description"] (.scalar field.description)
  let schema := Node.null
  let schema ← schema.assign [.name "type"] (.scalar "string")
  let schema ← if field.defaultValue ≠ "" then
      schema.assign [.name "default"] (.scalar field.defaultValue)
    else pure schema
  let parameter ← parameter.assign [.name "schema"] schema
  parameters.pushBack parameter

/-- The function `OpenAPIDocGenerator::generateParameters`: the loop starts from a
default-constructed (null) node. -/
def generateParameters (requestFields : List RequestFieldConfig) : Except Failure Node :=
  requestFields.foldlM addParameter Node.null

/-- The function `OpenAPIDocGenerator::generateResponseSchema`. -/
def generateResponseSchema (describeSelectQuery : Describe) (endpoint : EndpointConfig) :
    Except Failure Node := do
  let schema := Node.null
  let properties ← describeSelectQuery endpoint
  let schema ← schema.assign [.name "type"] (.scalar "object")
  let schema ← schema.assign [.name "properties", .name "data", .name "type"] (.scalar "array")
  let schema ← schema.assign [.name "properties", .name "data", .name "items", .name "type"]
    (.scalar "object")
  let schema ← schema.assign [.name "properties", .name "data", .name "items", .name "properties"]
    properties
  let schema ← schema.assign [.name "properties", .name "next", .name "type"] (.scalar "string")
  let schema ← schema.assign [.name "properties", .name "total_count", .name "type"]
    (.scalar "integer")
  return schema

/-- The lowercase method key of `generatePathItem` (lines 51-52): `"get"` for
an empty method, otherwise the method with `::tolower` applied to each
character. -/
def methodKey (endpoint : EndpointConfig) : String :=
  let method := if endpoint.method = "" then "get" else endpoint.method
  String.mk (method.data.map Char.toLower)

/-- The function `OpenAPIDocGenerator::generatePathItem`. -/
def generatePathItem (describeSelectQuery : Describe) (endpoint : EndpointConfig) :
    Except Failure Node := do
  let pathItem := Node.null
  let method := methodKey endpoint
  let operation := Node.null
  let operation ← operation.assign [.name "summary"] (.scalar ("Endpoint for " ++ endpoint.urlPath))
  let operation ← operation.assign [.name "description"] (.scalar "Description not available")
  let parameters ← generateParameters endpoint.requestFields
  let operation ← operation.assign [.name "parameters"] parameters
  let operation ← operation.assign [.name "responses", .name "200", .name "description"]
    (.scalar "Successful response")
  let schema ← generateResponseSchema describeSelectQuery endpoint
  let operation ← operation.assign
    [.name "responses", .name "200", .name "content", .name "application/json", .name "schema"]
    schema
  let operation ← if endpoint.rate_limit.enabled then do
      let operation ← operation.assign [.name "x-rate-limit", .name "max"]
        (.scalar (encodeInt endpoint.rate_limit.max))
      operation.assign [.name "x-rate-limit", .name "interval"]
        (.scalar (encodeInt endpoint.rate_limit.interval))
    else pure operation
  let operation ← if endpoint.auth.enabled then do
      let operation ← operation.pushBackAt [.name "security"] Node.null
      if endpoint.auth.type = "basic" then
        operation.assign [.name "security", .index 0, .name "basicAuth"] (.seq [])
      else
        operation.assign [.name "security", .index 0, .name "bearerAuth"] (.seq [])
    else pure operation
  let pathItem ← pathItem.assign [.name method] operation
  return pathItem

/-- The document of `generateDoc` before the loop over the endpoints (lines
11-36). -/
def docHeader (configManager : ConfigManager) (app : App) : Except Failure Node := do
  let doc := Node.null
  let doc ← doc.assign [.name "openapi"] (.scalar "3.0.0")
  let doc ← doc.assign [.name "info", .name "title"] (.scalar configManager.getProjectName)
  let doc ← doc.assign [.name "info", .name "version"] (.scalar "1.0.0")
  let doc ← doc.assign [.name "info", .name "description"]
    (.scalar configManager.getProjectDescription)
  let doc ← doc.pushBackAt [.name "servers"] Node.null
  let serverUrl := if app.ssl_used then "https://" else "http://"
  let serverUrl := serverUrl ++ "localhost"
  let serverUrl := serverUrl ++ (":" ++ toString app.port)
  let doc ← doc.assign [.name "servers", .index 0, .name "url"] (.scalar serverUrl)
  let doc ← doc.assign [.name "components", .name "securitySchemes", .name "bearerAuth", .name "type"]
    (.scalar "http")
  let doc ← doc.assign
    [.name "components", .name "securitySchemes", .name "bearerAuth", .name "scheme"]
    (.scalar "bearer")
  let doc ← doc.assign
    [.name "components", .name "securitySchemes", .name "bearerAuth", .name "bearerFormat"]
    (.scalar "JWT")
  let doc ← doc.assign
    [.name "components", .name "securitySchemes", .name "bearerAuth", .name "description"]
    (.scalar "JWT Authorization header using the Bearer scheme.")
  let doc ← doc.assign [.name "components", .name "securitySchemes", .name "basicAuth", .name "type"]
    (.scalar "http")
  let doc ← doc.assign
    [.name "components", .name "securitySchemes", .name "basicAuth", .name "scheme"]
    (.scalar "basic")
  let doc ← doc.assign
    [.name "components", .name "securitySchemes", .name "basicAuth", .name "description"]
    (.scalar "Basic HTTP Authentication")
  return doc

/-- One iteration of the loop of `generateDoc` (line 40):
`doc["paths"][endpoint.urlPath] = generatePathItem(endpoint)`. -/
def addPath (describeSelectQuery : Describe) (doc : Node) (endpoint : EndpointConfig) :
    Except Failure Node := do
  let pathItem ← generatePathItem describeSelectQuery endpoint
  doc.assign [.name "paths", .name endpoint.urlPath] pathItem

/-- The function `OpenAPIDocGenerator::generateDoc`. -/
def generateDoc (configManager : ConfigManager) (describeSelectQuery : Describe) (app : App) :
    Except Failure Node := do
  let doc ← docHeader configManager app
  let doc ← configManager.getEndpoints.foldlM (addPath describeSelectQuery) doc
  return doc

/-! ## `api_server.cpp` -/

/-- The part of a `crow::request` the dispatcher reads: HTTP method and URL
path. -/
structure Request where
  method : String
  url : String
  deriving DecidableEq, Repr

/-- The part of a `crow::response` the dispatcher writes; `ended` records a
call of `res.end()`. -/
structure Response where
  code : Nat
  body : String
  ended : Bool
  deriving DecidableEq, Repr

/-- The `std::map<std::string, std::string>` of extracted path parameters. -/
abbrev PathParams := List (String × String)

/-- One invocation of `requestHandler.handleRequest`: the endpoint and the
path parameters it was given. -/
structure HandlerCall where
  endpoint : EndpointConfig
  pathParams : PathParams
  deriving DecidableEq, Repr

/-- What a dispatch leaves behind: the response, and the invocations of the
request handler in order. -/
structure Dispatched where
  res : Response
  calls : List HandlerCall
  deriving DecidableEq, Repr

/-- The function `APIServer::handleDynamicRequest`.  The collaborators that are not under
`src/` are parameters: `ConfigManager::getEndpointForPath`,
`RouteTranslator::matchAndExtractParams` (its result is the returned flag
together with the two containers it fills, `paramNames` and `pathParams`) and
`RequestHandler::handleRequest` (the response it leaves). -/
def handleDynamicRequest
    (getEndpointForPath : String → Option EndpointConfig)
    (matchAndExtractParams : String → String → Bool × List String × PathParams)
    (handleRequest : Request → Response → EndpointConfig → PathParams → Response)
    (req : Request) (res : Response) : Dispatched :=
  let path := req.url
  match getEndpointForPath path with
  | none => ⟨{ res with code := 404, body := "Not Found", ended := true }, []⟩
  | some endpoint =>
    let (matched, _paramNames, pathParams) := matchAndExtractParams endpoint.urlPath path
    if !matched then
      ⟨{ res with code := 404, body := "Not Found", ended := true }, []⟩
    else
      ⟨handleRequest req res endpoint pathParams, [⟨endpoint, pathParams⟩]⟩

/-- Segments of a path: the pieces between the separators `/`. -/
def splitSegments : List Char → List (List Char)
  | [] => [[]]
  | c :: rest =>
    if c = '/' then [] :: splitSegments rest
    else match splitSegments rest with
      | [] => [[c]]
      | seg :: segs => (c :: seg) :: segs

/-- Name declared by a capture segment `<name>`. -/
def captureName (segment : List Char) : String :=
  let inner := segment.drop 1
  String.mk (if inner.getLast? = some '>' then inner.dropLast else inner)

/-- Segment-wise match of spec §4.2: same number of segments, and at every
position a capture segment (value recorded under its name) or a literally equal
segment. -/
def matchSegments : List (List Char) → List (List Char) → Option PathParams
  | [], [] => some []
  | t :: ts, s :: ss =>
    if t.head? = some '<' then
      (matchSegments ts ss).map (fun params => (captureName t, String.mk s) :: params)
    else if t = s then matchSegments ts ss
    else none
  | _, _ => none

/-- Modelled from the spec: `RouteTranslator::matchAndExtractParams` is not
under `src/`.  Spec §4.2: split template and concrete path into segments on the
path separator; the match succeeds only if both have the same segment count and
every template segment is a capture (written `<name>` in the spec's examples) or
equals the concrete segment literally. -/
def specMatchAndExtractParams (pattern path : String) : Bool × List String × PathParams :=
  match matchSegments (splitSegments pattern.data) (splitSegments path.data) with
  | some params => (true, params.map Prod.fst, params)
  | none => (false, [], [])

/-- Modelled from the spec: `ConfigManager::getEndpointForPath` is not under
`src/`.  It receives the path alone; following spec §4.2 it returns the first
endpoint, in catalog order, whose template matches the path. -/
def specGetEndpointForPath (endpoints : List EndpointConfig) (path : String) :
    Option EndpointConfig :=
  endpoints.find? (fun e => (specMatchAndExtractParams e.urlPath path).1)

/-! ## Closed forms of the generated nodes

The nodes the generator builds, written out; the theorems below show that the
functions above return exactly these. -/

/-- The schema stub of a parameter: fixed type, and the default when the
field has a non-empty one. -/
def parameterSchema (field : RequestFieldConfig) : Node :=
  .map (("type", .scalar "string") ::
    (if field.defaultValue = "" then [] else [("default", .scalar field.defaultValue)]))

/-- The parameter entry built for one request field. -/
def parameterNode (field : RequestFieldConfig) : Node :=
  .map [("name", .scalar field.fieldName), ("in", .scalar field.fieldIn),
    ("required", .scalar (encodeBool field.required)),
    ("description", .scalar field.description), ("schema", parameterSchema field)]

/-- The node `generateParameters` returns: null for no fields, otherwise the
sequence of the parameter entries. -/
def parametersNode (fields : List RequestFieldConfig) : Node :=
  match fields with
  | [] => .null
  | f :: fs => .seq ((f :: fs).map parameterNode)

/-- The response schema built around the row description `properties`. -/
def responseSchemaNode (properties : Node) : Node :=
  .map [("type", .scalar "object"),
    ("properties", .map [
      ("data", .map [("type", .scalar "array"),
        ("items", .map [("type", .scalar "object"), ("properties", properties)])]),
      ("next", .map [("type", .scalar "string")]),
      ("total_count", .map [("type", .scalar "integer")])])]

/-- The `x-rate-limit` entries of an operation. -/
def rateLimitEntries (endpoint : EndpointConfig) : List (String × Node) :=
  if endpoint.rate_limit.enabled then
    [("x-rate-limit", .map [("max", .scalar (encodeInt endpoint.rate_limit.max)),
      ("interval", .scalar (encodeInt endpoint.rate_limit.interval))])]
  else []

/-- The `security` entries of an operation. -/
def securityEntries (endpoint : EndpointConfig) : List (String × Node) :=
  if endpoint.auth.enabled then
    [("security", .seq [.map [
      (if endpoint.auth.type = "basic" then "basicAuth" else "bearerAuth", .seq [])]])]
  else []

/-- The operation built for an endpoint whose row description is
`properties`. -/
def operationNode (endpoint : EndpointConfig) (properties : Node) : Node :=
  .map ([("summary", .scalar ("Endpoint for " ++ endpoint.urlPath)),
      ("description", .scalar "Description not available"),
      ("parameters", parametersNode endpoint.requestFields),
      ("responses", .map [("200", .map [("description", .scalar "Successful response"),
        ("content", .map [("application/json",
          .map [("schema", responseSchemaNode properties)])])])])]
    ++ rateLimitEntries endpoint ++ securityEntries endpoint)

/-- The two security scheme declarations of `generateDoc` (lines 28-36). -/
def securitySchemesNode : Node :=
  .map [("bearerAuth", .map [("type", .scalar "http"), ("scheme", .scalar "bearer"),
      ("bearerFormat", .scalar "JWT"),
      ("description", .scalar "JWT Authorization header using the Bearer scheme.")]),
    ("basicAuth", .map [("type", .scalar "http"), ("scheme", .scalar "basic"),
      ("description", .scalar "Basic HTTP Authentication")])]

/-- The entries of the document before the loop over the endpoints. -/
def headerEntries (configManager : ConfigManager) (app : App) : List (String × Node) :=
  [("openapi", .scalar "3.0.0"),
    ("info", .map [("title", .scalar configManager.getProjectName),
      ("version", .scalar "1.0.0"),
      ("description", .scalar configManager.getProjectDescription)]),
    ("servers", .seq [.map [("url",
      .scalar ((if app.ssl_used then "https://" else "http://") ++ "localhost" ++
        (":" ++ toString app.port)))]]),
    ("components", .map [("securitySchemes", securitySchemesNode)])]

/-- The path item stored for an endpoint: the one built from the row
description when `describeSelectQuery` succeeds. -/
def pathItemNode (describeSelectQuery : Describe) (endpoint : EndpointConfig) : Node :=
  match describeSelectQuery endpoint with
  | .ok properties => .map [(methodKey endpoint, operationNode endpoint properties)]
  | .error _ => .null

/-- The entries of `paths` after the loop has run over `endpoints`, starting
from the entries `paths`. -/
def pathsEntries (describeSelectQuery : Describe) (endpoints : List EndpointConfig)
    (paths : List (String × Node)) : List (String × Node) :=
  endpoints.foldl
    (fun entries endpoint =>
      entriesPut endpoint.urlPath (pathItemNode describeSelectQuery endpoint) entries)
    paths

/-- Every endpoint of the list is described successfully. -/
def AllDescribed (describeSelectQuery : Describe) (endpoints : List EndpointConfig) : Prop :=
  ∀ e ∈ endpoints, ∃ properties, describeSelectQuery e = .ok properties

/-- The document after the loop has run over `endpoints`: the header alone
for no endpoint, otherwise the header followed by `paths`. -/
def docNode (configManager : ConfigManager) (describeSelectQuery : Describe) (app : App)
    (endpoints : List EndpointConfig) : Node :=
  match endpoints with
  | [] => .map (headerEntries configManager app)
  | e :: rest => .map (headerEntries configManager app ++
      [("paths", .map (pathsEntries describeSelectQuery (e :: rest) []))])

/-- Whether one endpoint is described successfully can be computed. -/
instance describedDecidable (describeSelectQuery : Describe) (e : EndpointConfig) :
    Decidable (∃ properties, describeSelectQuery e = .ok properties) :=
  match describeSelectQuery e with
  | .ok properties => isTrue ⟨properties, rfl⟩
  | .error _ => isFalse (fun ⟨_, hP⟩ => by cases hP)

/-- Whether `AllDescribed` holds can be computed on a given catalog. -/
instance allDescribedDecidable (describeSelectQuery : Describe) (endpoints : List EndpointConfig) :
    Decidable (AllDescribed describeSelectQuery endpoints) :=
  List.decidableBAll _ endpoints

/-! ## Sample configuration -/

/-- A row description as the collaborator could return it. -/
def sampleProperties : Node :=
  .map [("id", .map [("type", .scalar "integer")]), ("name", .map [("type", .scalar "string")])]

/-- A collaborator that fails for the template `/broken` and succeeds for every
other endpoint. -/
def sampleDescribe : Describe := fun endpoint =>
  if endpoint.urlPath = "/broken" then .error (.describe "Catalog Error: table missing")
  else .ok sampleProperties

/-- The endpoint of the spec's scenario: orders of a customer, GET. -/
def ordersEndpoint : EndpointConfig :=
  { urlPath := "/customers/<customer_id>/orders", method := "GET",
    requestFields := [
      { fieldName := "customer_id", fieldIn := "path", description := "Customer",
        required := true, defaultValue := "" },
      { fieldName := "limit", fieldIn := "query", description := "Page size",
        required := false, defaultValue := "10" }],
    rate_limit := { enabled := true, max := 100, interval := 60 },
    auth := { enabled := true, type := "basic" } }

/-- An endpoint with no request fields, no method, no policies. -/
def itemsEndpoint : EndpointConfig :=
  { urlPath := "/items", method := "", requestFields := [],
    rate_limit := { enabled := false, max := 0, interval := 0 },
    auth := { enabled := false, type := "" } }

/-- The same template as `itemsEndpoint`, answering DELETE. -/
def itemsDeleteEndpoint : EndpointConfig :=
  { itemsEndpoint with method := "DELETE" }

/-- An endpoint protected by bearer authentication. -/
def reportsEndpoint : EndpointConfig :=
  { urlPath := "/reports", method := "GET", requestFields := [],
    rate_limit := { enabled := false, max := 0, interval := 0 },
    auth := { enabled := true, type := "bearer" } }

/-- The application the samples are served from. -/
def sampleApp : App := { ssl_used := false, port := 8080 }

/-- A configuration with the given catalog. -/
def sampleConfig (endpoints : List EndpointConfig) : ConfigManager :=
  { getProjectName := "shop", getProjectDescription := "Shop API", getEndpoints := endpoints }

/-- A request handler that answers 200 with a fixed body. -/
def sampleHandler : Request → Response → EndpointConfig → PathParams → Response :=
  fun _ res _ _ => { res with code := 200, body := "rows" }

/-- A fresh `crow::response`. -/
def freshResponse : Response := { code := 200, body := "", ended := false }

/-! ## Facts about the document tree and the closed forms -/

theorem entriesFind_put_self (k : String) (v : Node) (es : List (String × Node)) :
    entriesFind k (entriesPut k v es) = some v := by
  induction es with
  | nil => simp [entriesPut, entriesFind]
  | cons hd tl ih =>
    obtain ⟨k', v'⟩ := hd
    by_cases h : k' = k
    · simp [entriesPut, entriesFind, h]
    · simp [entriesPut, entriesFind, h, ih]

theorem entriesFind_put_ne {k k' : String} (h : k' ≠ k) (v : Node) (es : List (String × Node)) :
    entriesFind k (entriesPut k' v es) = entriesFind k es := by
  induction es with
  | nil => simp [entriesPut, entriesFind, h]
  | cons hd tl ih =>
    obtain ⟨k₀, v₀⟩ := hd
    by_cases h₀ : k₀ = k'
    · subst h₀
      simp [entriesPut, entriesFind, h]
    · by_cases h₁ : k₀ = k
      · subst h₁
        simp [entriesPut, entriesFind, h₀]
      · simp [entriesPut, entriesFind, h₀, h₁, ih]

theorem entriesPut_put (k : String) (v w : Node) (es : List (String × Node)) :
    entriesPut k w (entriesPut k v es) = entriesPut k w es := by
  induction es with
  | nil => simp [entriesPut]
  | cons hd tl ih =>
    obtain ⟨k', v'⟩ := hd
    by_cases h : k' = k
    · simp [entriesPut, h]
    · simp [entriesPut, h, ih]

theorem addParameter_eq (parameters : Node) (field : RequestFieldConfig) :
    addParameter parameters field = parameters.pushBack (parameterNode field) := by
  by_cases h : field.defaultValue = "" <;>
    simp [addParameter, parameterNode, parameterSchema, Node.assign, Node.modifyAt, Node.child,
      Node.setChild, entriesFind, entriesPut, bind, Except.bind, pure, Except.pure, h]

theorem foldlM_addParameter_seq (fields : List RequestFieldConfig) (acc : List Node) :
    fields.foldlM addParameter (Node.seq acc) = .ok (.seq (acc ++ fields.map parameterNode)) := by
  induction fields generalizing acc with
  | nil => simp [pure, Except.pure]
  | cons f fs ih =>
    simp [List.foldlM_cons, addParameter_eq, Node.pushBack, bind, Except.bind, ih]

theorem generateParameters_nil : generateParameters [] = .ok .null := rfl

theorem generateParameters_cons (f : RequestFieldConfig) (fs : List RequestFieldConfig) :
    generateParameters (f :: fs) = .ok (.seq ((f :: fs).map parameterNode)) := by
  simp [generateParameters, List.foldlM_cons, addParameter_eq, Node.pushBack, bind, Except.bind,
    foldlM_addParameter_seq]

theorem generateParameters_eq (fields : List RequestFieldConfig) :
    generateParameters fields = .ok (parametersNode fields) := by
  cases fields with
  | nil => rfl
  | cons f fs => exact generateParameters_cons f fs

theorem generateResponseSchema_ok {describeSelectQuery : Describe} {endpoint : EndpointConfig}
    {properties : Node} (h : describeSelectQuery endpoint = .ok properties) :
    generateResponseSchema describeSelectQuery endpoint = .ok (responseSchemaNode properties) := by
  simp [generateResponseSchema, responseSchemaNode, h, Node.assign, Node.modifyAt, Node.child,
    Node.setChild, entriesFind, entriesPut, bind, Except.bind, pure, Except.pure]

theorem generateResponseSchema_error {describeSelectQuery : Describe} {endpoint : EndpointConfig}
    {err : Failure} (h : describeSelectQuery endpoint = .error err) :
    generateResponseSchema describeSelectQuery endpoint = .error err := by
  simp [generateResponseSchema, h, bind, Except.bind]

theorem generatePathItem_ok {describeSelectQuery : Describe} {endpoint : EndpointConfig}
    {properties : Node} (h : describeSelectQuery endpoint = .ok properties) :
    generatePathItem describeSelectQuery endpoint
      = .ok (.map [(methodKey endpoint, operationNode endpoint properties)]) := by
  have hs := generateResponseSchema_ok h
  have hp := generateParameters_eq endpoint.requestFields
  cases hrl : endpoint.rate_limit.enabled <;> cases hau : endpoint.auth.enabled <;>
    by_cases hty : endpoint.auth.type = "basic" <;>
    simp [generatePathItem, operationNode, rateLimitEntries, securityEntries, hs, hp, hrl, hau,
      hty, Node.assign, Node.pushBackAt, Node.pushBack, Node.modifyAt, Node.child, Node.setChild,
      entriesFind, entriesPut, bind, Except.bind, pure, Except.pure]

theorem generatePathItem_error {describeSelectQuery : Describe} {endpoint : EndpointConfig}
    {err : Failure} (h : describeSelectQuery endpoint = .error err) :
    generatePathItem describeSelectQuery endpoint = .error err := by
  have hs := generateResponseSchema_error h
  have hp := generateParameters_eq endpoint.requestFields
  simp [generatePathItem, hs, hp, Node.assign, Node.modifyAt, Node.child, Node.setChild,
    entriesFind, entriesPut, bind, Except.bind, pure, Except.pure]

theorem docHeader_eq (configManager : ConfigManager) (app : App) :
    docHeader configManager app = .ok (.map (headerEntries configManager app)) := by
  simp [docHeader, headerEntries, securitySchemesNode, Node.assign, Node.pushBackAt,
    Node.pushBack, Node.modifyAt, Node.child, Node.setChild, entriesFind, entriesPut, bind,
    Except.bind, pure, Except.pure]

theorem entriesPut_of_find {k : String} {v : Node} {es : List (String × Node)}
    (h : entriesFind k es = some v) : entriesPut k v es = es := by
  induction es with
  | nil => simp [entriesFind] at h
  | cons hd tl ih =>
    obtain ⟨k', v'⟩ := hd
    by_cases hk : k' = k
    · simp [entriesFind, hk] at h
      simp [entriesPut, hk, h]
    · simp [entriesFind, hk] at h
      simp [entriesPut, hk, ih h]

theorem addPath_first {describeSelectQuery : Describe} {endpoint : EndpointConfig}
    {properties : Node} (h : describeSelectQuery endpoint = .ok properties)
    {es : List (String × Node)} (hes : entriesFind "paths" es = none) :
    addPath describeSelectQuery (.map es) endpoint
      = .ok (.map (entriesPut "paths"
          (.map [(endpoint.urlPath, pathItemNode describeSelectQuery endpoint)]) es)) := by
  simp [addPath, generatePathItem_ok h, pathItemNode, h, hes, Node.assign, Node.modifyAt,
    Node.child, Node.setChild, bind, Except.bind]

theorem addPath_next {describeSelectQuery : Describe} {endpoint : EndpointConfig}
    {properties : Node} (h : describeSelectQuery endpoint = .ok properties)
    {es paths : List (String × Node)} (hes : entriesFind "paths" es = some (.map paths)) :
    addPath describeSelectQuery (.map es) endpoint
      = .ok (.map (entriesPut "paths"
          (.map (entriesPut endpoint.urlPath (pathItemNode describeSelectQuery endpoint) paths))
          es)) := by
  simp [addPath, generatePathItem_ok h, pathItemNode, h, hes, Node.assign, Node.modifyAt,
    Node.child, Node.setChild, bind, Except.bind]

theorem addPath_error {describeSelectQuery : Describe} {endpoint : EndpointConfig}
    {err : Failure} (h : describeSelectQuery endpoint = .error err) (doc : Node) :
    addPath describeSelectQuery doc endpoint = .error err := by
  simp [addPath, generatePathItem_error h, bind, Except.bind]

theorem foldlM_addPath {describeSelectQuery : Describe} (endpoints : List EndpointConfig)
    (hall : AllDescribed describeSelectQuery endpoints)
    (es paths : List (String × Node)) (hes : entriesFind "paths" es = some (.map paths)) :
    endpoints.foldlM (addPath describeSelectQuery) (.map es)
      = .ok (.map (entriesPut "paths"
          (.map (pathsEntries describeSelectQuery endpoints paths)) es)) := by
  induction endpoints generalizing es paths with
  | nil => simp [pathsEntries, entriesPut_of_find hes, pure, Except.pure]
  | cons e rest ih =>
    obtain ⟨properties, hP⟩ := hall e (List.mem_cons_self _ _)
    have hrest : AllDescribed describeSelectQuery rest :=
      fun e' he' => hall e' (List.mem_cons_of_mem _ he')
    rw [List.foldlM_cons, addPath_next hP hes]
    simp only [bind, Except.bind]
    rw [ih hrest _ _ (entriesFind_put_self _ _ _), entriesPut_put]
    rfl

theorem Node.find?_map (entries : List (String × Node)) (k : String) :
    (Node.map entries).find? k = entriesFind k entries := rfl

theorem docNode_find_paths (configManager : ConfigManager) (describeSelectQuery : Describe)
    (app : App) (e : EndpointConfig) (rest : List EndpointConfig) :
    (docNode configManager describeSelectQuery app (e :: rest)).find? "paths"
      = some (.map (pathsEntries describeSelectQuery (e :: rest) [])) := by
  simp [docNode, headerEntries, Node.find?, entriesFind]

theorem docNode_find_components (configManager : ConfigManager) (describeSelectQuery : Describe)
    (app : App) (endpoints : List EndpointConfig) :
    (docNode configManager describeSelectQuery app endpoints).find? "components"
      = some (.map [("securitySchemes", securitySchemesNode)]) := by
  cases endpoints <;> simp [docNode, headerEntries, Node.find?, entriesFind]

theorem foldlM_addPath_header (configManager : ConfigManager) {describeSelectQuery : Describe}
    (app : App) (endpoints : List EndpointConfig)
    (hall : AllDescribed describeSelectQuery endpoints) :
    endpoints.foldlM (addPath describeSelectQuery) (.map (headerEntries configManager app))
      = .ok (docNode configManager describeSelectQuery app endpoints) := by
  cases endpoints with
  | nil => simp [docNode, pure, Except.pure]
  | cons e rest =>
    obtain ⟨properties, hP⟩ := hall e (List.mem_cons_self _ _)
    have hrest : AllDescribed describeSelectQuery rest :=
      fun e' he' => hall e' (List.mem_cons_of_mem _ he')
    have hnone : entriesFind "paths" (headerEntries configManager app) = none := by
      simp [headerEntries, entriesFind]
    rw [List.foldlM_cons, addPath_first hP hnone]
    simp only [bind, Except.bind]
    rw [foldlM_addPath rest hrest _ _ (entriesFind_put_self _ _ _), entriesPut_put]
    simp [docNode, headerEntries, entriesPut, pathsEntries]

theorem generateDoc_ok (configManager : ConfigManager) {describeSelectQuery : Describe}
    (app : App) (hall : AllDescribed describeSelectQuery configManager.getEndpoints) :
    generateDoc configManager describeSelectQuery app
      = .ok (docNode configManager describeSelectQuery app configManager.getEndpoints) := by
  simp [generateDoc, docHeader_eq, foldlM_addPath_header configManager app _ hall, bind,
    Except.bind, pure, Except.pure]

theorem generateDoc_error (configManager : ConfigManager) {describeSelectQuery : Describe}
    (app : App) {pre post : List EndpointConfig} {e : EndpointConfig} {err : Failure}
    (hsplit : configManager.getEndpoints = pre ++ e :: post)
    (hpre : AllDescribed describeSelectQuery pre)
    (herr : describeSelectQuery e = .error err) :
    generateDoc configManager describeSelectQuery app = .error err := by
  simp [generateDoc, docHeader_eq, hsplit, List.foldlM_append,
    foldlM_addPath_header configManager app _ hpre, addPath_error herr, bind, Except.bind]

theorem firstFailure (describeSelectQuery : Describe) (endpoints : List EndpointConfig)
    (h : ¬ AllDescribed describeSelectQuery endpoints) :
    ∃ pre e post err, endpoints = pre ++ e :: post ∧ AllDescribed describeSelectQuery pre ∧
      describeSelectQuery e = .error err := by
  induction endpoints with
  | nil => exact absurd (fun e he => by simp at he) h
  | cons e rest ih =>
    cases hd : describeSelectQuery e with
    | error err =>
      exact ⟨[], e, rest, err, rfl, fun e' he' => by simp at he', hd⟩
    | ok properties =>
      have hrest : ¬ AllDescribed describeSelectQuery rest := by
        intro hall
        apply h
        intro e' he'
        rcases List.mem_cons.mp he' with rfl | hmem
        · exact ⟨properties, hd⟩
        · exact hall e' hmem
      obtain ⟨pre, e₁, post, err, hsplit, hpre, herr⟩ := ih hrest
      refine ⟨e :: pre, e₁, post, err, by simp [hsplit], ?_, herr⟩
      intro e' he'
      rcases List.mem_cons.mp he' with rfl | hmem
      · exact ⟨properties, hd⟩
      · exact hpre e' hmem

theorem allDescribed_of_generateDoc_ok (configManager : ConfigManager)
    {describeSelectQuery : Describe} (app : App) {doc : Node}
    (h : generateDoc configManager describeSelectQuery app = .ok doc) :
    AllDescribed describeSelectQuery configManager.getEndpoints := by
  by_contra hnot
  obtain ⟨pre, e, post, err, hsplit, hpre, herr⟩ := firstFailure _ _ hnot
  rw [generateDoc_error configManager app hsplit hpre herr] at h
  cases h

theorem pathsEntries_find_other (describeSelectQuery : Describe) (k : String)
    (post : List EndpointConfig) (paths : List (String × Node))
    (h : ∀ e ∈ post, e.urlPath ≠ k) :
    entriesFind k (pathsEntries describeSelectQuery post paths) = entriesFind k paths := by
  induction post generalizing paths with
  | nil => rfl
  | cons e rest ih =>
    have hrest : ∀ e' ∈ rest, e'.urlPath ≠ k := fun e' he' => h e' (List.mem_cons_of_mem _ he')
    have he : e.urlPath ≠ k := h e (List.mem_cons_self _ _)
    show entriesFind k (pathsEntries describeSelectQuery rest _) = _
    rw [ih _ hrest, entriesFind_put_ne he]

theorem pathsEntries_find_last (describeSelectQuery : Describe)
    (pre post : List EndpointConfig) (e : EndpointConfig) (paths : List (String × Node))
    (h : ∀ e' ∈ post, e'.urlPath ≠ e.urlPath) :
    entriesFind e.urlPath (pathsEntries describeSelectQuery (pre ++ e :: post) paths)
      = some (pathItemNode describeSelectQuery e) := by
  have : pathsEntries describeSelectQuery (pre ++ e :: post) paths
      = pathsEntries describeSelectQuery post
          (entriesPut e.urlPath (pathItemNode describeSelectQuery e)
            (pathsEntries describeSelectQuery pre paths)) := by
    simp [pathsEntries, List.foldl_append]
  rw [this, pathsEntries_find_other _ _ _ _ h, entriesFind_put_self]

theorem docNode_find_path_last (configManager : ConfigManager) (describeSelectQuery : Describe)
    (app : App) (pre post : List EndpointConfig) (e : EndpointConfig)
    (hlast : ∀ e' ∈ post, e'.urlPath ≠ e.urlPath) :
    (docNode configManager describeSelectQuery app (pre ++ e :: post)).findPath?
        ["paths", e.urlPath]
      = some (pathItemNode describeSelectQuery e) := by
  have hfind := pathsEntries_find_last describeSelectQuery pre post e [] hlast
  obtain ⟨e₀, rest₀, h₀⟩ : ∃ e₀ rest₀, pre ++ e :: post = e₀ :: rest₀ := by
    cases pre <;> simp
  rw [h₀] at hfind ⊢
  simp only [Node.findPath?, docNode_find_paths, Node.find?_map, hfind]

/-- C2 (as stated, refuted): `itemsEndpoint` (no method, hence `get`) and
`itemsDeleteEndpoint` share the template `/items` and differ in method; the
description succeeds for both, and the document holds no operation at
`paths["/items"]["get"]`: the path item of the later endpoint has replaced the
one of the earlier. -/
theorem generateDoc_shared_template_overwrites :
    itemsEndpoint.urlPath = itemsDeleteEndpoint.urlPath ∧
    methodKey itemsEndpoint = "get" ∧ methodKey itemsDeleteEndpoint = "delete" ∧
    AllDescribed sampleDescribe [itemsEndpoint, itemsDeleteEndpoint] ∧
    ∃ doc, generateDoc (sampleConfig [itemsEndpoint, itemsDeleteEndpoint]) sampleDescribe
        sampleApp = .ok doc ∧
      doc.findPath? ["paths", itemsEndpoint.urlPath, methodKey itemsEndpoint] = none ∧
      doc.findPath? ["paths", "/items"]
        = some (.map [("delete", operationNode itemsDeleteEndpoint sampleProperties)]) := by
  exact ⟨rfl, by decide, by decide, by decide, _, rfl, rfl, rfl⟩

/-- C2 (amended): when the description succeeds for every endpoint,
`generateDoc` returns a document in which, for every endpoint `e` that no later
endpoint of the catalog shares its URL template with, `paths[e.urlPath]` is
exactly the path item `generatePathItem` builds from `e`, whose single key is
the lowercase method (`get` for an empty method) and holds the operation. -/
theorem generateDoc_operation_of_last_endpoint (configManager : ConfigManager)
    (describeSelectQuery : Describe) (app : App)
    (hall : AllDescribed describeSelectQuery configManager.getEndpoints)
    (pre post : List EndpointConfig) (e : EndpointConfig)
    (hsplit : configManager.getEndpoints = pre ++ e :: post)
    (hlast : ∀ e' ∈ post, e'.urlPath ≠ e.urlPath) :
    ∃ doc operation,
      generateDoc configManager describeSelectQuery app = .ok doc ∧
      generatePathItem describeSelectQuery e = .ok (.map [(methodKey e, operation)]) ∧
      doc.findPath? ["paths", e.urlPath] = some (.map [(methodKey e, operation)]) ∧
      doc.findPath? ["paths", e.urlPath, methodKey e] = some operation := by
  obtain ⟨properties, hP⟩ := hall e (by rw [hsplit]; simp)
  have hfind := docNode_find_path_last configManager describeSelectQuery app pre post e hlast
  have hitem : pathItemNode describeSelectQuery e
      = .map [(methodKey e, operationNode e properties)] := by
    simp [pathItemNode, hP]
  rw [hitem] at hfind
  refine ⟨_, operationNode e properties, generateDoc_ok configManager app hall,
    generatePathItem_ok hP, ?_, ?_⟩
  · rw [hsplit]
    exact hfind
  · rw [hsplit]
    simp only [Node.findPath?] at hfind ⊢
    cases hp : (docNode configManager describeSelectQuery app (pre ++ e :: post)).find? "paths"
      with
    | none => simp [hp] at hfind
    | some paths =>
      simp only [hp] at hfind ⊢
      cases hu : paths.find? e.urlPath with
      | none => simp [hu] at hfind
      | some item =>
        simp only [hu] at hfind ⊢
        injection hfind with hfind
        subst hfind
        simp [Node.find?, entriesFind]

/-- Witness of C2 (amended): in the catalog `[itemsEndpoint, ordersEndpoint]`
the templates differ, and the operation of `itemsEndpoint` is found under
`paths["/items"]["get"]`. -/
theorem generateDoc_operation_of_last_endpoint_witness :
    ∃ doc operation,
      generateDoc (sampleConfig [itemsEndpoint, ordersEndpoint]) sampleDescribe sampleApp
        = .ok doc ∧
      generatePathItem sampleDescribe itemsEndpoint
        = .ok (.map [(methodKey itemsEndpoint, operation)]) ∧
      doc.findPath? ["paths", itemsEndpoint.urlPath]
        = some (.map [(methodKey itemsEndpoint, operation)]) ∧
      doc.findPath? ["paths", itemsEndpoint.urlPath, methodKey itemsEndpoint] = some operation :=
  generateDoc_operation_of_last_endpoint
    (sampleConfig [itemsEndpoint, ordersEndpoint]) sampleDescribe sampleApp
    (by decide) [] [ordersEndpoint] itemsEndpoint rfl (by decide)

/-! ## C3 and C4: the dispatcher -/

/-- C4: `handleDynamicRequest`, for every request: if `getEndpointForPath`
returns no endpoint, or `matchAndExtractParams` returns false for the endpoint
found, the response has code 404 and body "Not Found" and the request handler
is not invoked; otherwise the handler is invoked exactly once, with that
endpoint and exactly the extracted `pathParams`, on the response as it was
received (no 404 field set), and the response is the one the handler leaves. -/
theorem handleDynamicRequest_outcome
    (getEndpointForPath : String → Option EndpointConfig)
    (matchAndExtractParams : String → String → Bool × List String × PathParams)
    (handleRequest : Request → Response → EndpointConfig → PathParams → Response)
    (req : Request) (res : Response) :
    ((getEndpointForPath req.url = none ∨
        ∃ endpoint, getEndpointForPath req.url = some endpoint ∧
          (matchAndExtractParams endpoint.urlPath req.url).1 = false) →
      (handleDynamicRequest getEndpointForPath matchAndExtractParams handleRequest
          req res).res.code = 404 ∧
      (handleDynamicRequest getEndpointForPath matchAndExtractParams handleRequest
          req res).res.body = "Not Found" ∧
      (handleDynamicRequest getEndpointForPath matchAndExtractParams handleRequest
          req res).calls = []) ∧
    (∀ endpoint, getEndpointForPath req.url = some endpoint →
      (matchAndExtractParams endpoint.urlPath req.url).1 = true →
      (handleDynamicRequest getEndpointForPath matchAndExtractParams handleRequest
          req res).calls
        = [{ endpoint := endpoint,
             pathParams := (matchAndExtractParams endpoint.urlPath req.url).2.2 }] ∧
      (handleDynamicRequest getEndpointForPath matchAndExtractParams handleRequest
          req res).res
        = handleRequest req res endpoint
            (matchAndExtractParams endpoint.urlPath req.url).2.2) := by
  refine ⟨?_, ?_⟩
  · rintro (hnone | ⟨endpoint, hget, hmatch⟩)
    · simp [handleDynamicRequest, hnone]
    · simp [handleDynamicRequest, hget, hmatch]
  · intro endpoint hget hmatch
    simp [handleDynamicRequest, hget, hmatch]

/-- Witness of C4: the spec's scenario.  `/customers/42/invoices` matches no
template and yields 404 without a handler call; `/customers/42/orders` invokes
the handler once with `ordersEndpoint`. -/
theorem handleDynamicRequest_outcome_witness :
    ((handleDynamicRequest (specGetEndpointForPath [ordersEndpoint]) specMatchAndExtractParams
        sampleHandler { method := "GET", url := "/customers/42/invoices" } freshResponse).res.code
        = 404 ∧
      (handleDynamicRequest (specGetEndpointForPath [ordersEndpoint]) specMatchAndExtractParams
        sampleHandler { method := "GET", url := "/customers/42/invoices" } freshResponse).res.body
        = "Not Found" ∧
      (handleDynamicRequest (specGetEndpointForPath [ordersEndpoint]) specMatchAndExtractParams
        sampleHandler { method := "GET", url := "/customers/42/invoices" } freshResponse).calls
        = []) ∧
    (handleDynamicRequest (specGetEndpointForPath [ordersEndpoint]) specMatchAndExtractParams
        sampleHandler { method := "GET", url := "/customers/42/orders" } freshResponse).calls
      = [{ endpoint := ordersEndpoint,
           pathParams := (specMatchAndExtractParams ordersEndpoint.urlPath
             "/customers/42/orders").2.2 }] :=
  ⟨(handleDynamicRequest_outcome (specGetEndpointForPath [ordersEndpoint])
      specMatchAndExtractParams sampleHandler
      { method := "GET", url := "/customers/42/invoices" } freshResponse).1
      (Or.inl (by decide)),
   ((handleDynamicRequest_outcome (specGetEndpointForPath [ordersEndpoint])
      specMatchAndExtractParams sampleHandler
      { method := "GET", url := "/customers/42/orders" } freshResponse).2
      ordersEndpoint (by decide) (by decide)).1⟩

/-! ## C5 to C7 and C9: the operation of an endpoint -/

/-- C5: for every endpoint whose query is described, `generatePathItem`
returns the operation under the method key, and the operation has a `security`
entry if and only if `auth.enabled`; when present it is a one-element list
whose element is a map with the single key `basicAuth` (for `auth.type`
"basic") or `bearerAuth` (for "bearer" and every other `auth.type`), holding an
empty sequence. -/
theorem generatePathItem_security (describeSelectQuery : Describe) (endpoint : EndpointConfig)
    (properties : Node) (h : describeSelectQuery endpoint = .ok properties) :
    ∃ operation,
      generatePathItem describeSelectQuery endpoint
        = .ok (.map [(methodKey endpoint, operation)]) ∧
      operation.find? "security" =
        (if endpoint.auth.enabled then
          some (.seq [.map [
            (if endpoint.auth.type = "basic" then "basicAuth" else "bearerAuth", .seq [])]])
        else none) ∧
      (endpoint.auth.type = "bearer" → endpoint.auth.enabled = true →
        operation.find? "security" = some (.seq [.map [("bearerAuth", .seq [])]])) := by
  refine ⟨operationNode endpoint properties, generatePathItem_ok h, ?_, ?_⟩
  · cases hrl : endpoint.rate_limit.enabled <;> cases hau : endpoint.auth.enabled <;>
      simp [operationNode, rateLimitEntries, securityEntries, Node.find?, entriesFind, hrl, hau]
  · intro hty hau
    cases hrl : endpoint.rate_limit.enabled <;>
      simp [operationNode, rateLimitEntries, securityEntries, Node.find?, entriesFind, hrl, hau,
        hty]

/-- Witness of C5: `reportsEndpoint` has bearer authentication enabled, so its
operation carries the one-element `security` list selecting `bearerAuth`. -/
theorem generatePathItem_security_witness :
    ∃ operation,
      generatePathItem sampleDescribe reportsEndpoint
        = .ok (.map [(methodKey reportsEndpoint, operation)]) ∧
      operation.find? "security" =
        (if reportsEndpoint.auth.enabled then
          some (.seq [.map [
            (if reportsEndpoint.auth.type = "basic" then "basicAuth" else "bearerAuth",
              .seq [])]])
        else none) ∧
      operation.find? "security" = some (.seq [.map [("bearerAuth", .seq [])]]) := by
  obtain ⟨operation, hitem, hfind, hbearer⟩ :=
    generatePathItem_security sampleDescribe reportsEndpoint sampleProperties rfl
  exact ⟨operation, hitem, hfind, hbearer rfl rfl⟩

/-- C6: for every non-empty sequence of request fields, `generateParameters`
returns a sequence of the same length and in the same order whose i-th entry
has `name`, `in`, `required` and `description` of the i-th field and a `schema`
whose `type` is the fixed "string" and which carries `default`, equal to the
field's `defaultValue`, exactly when that string is non-empty. -/
theorem generateParameters_sequence (requestFields : List RequestFieldConfig)
    (h : requestFields ≠ []) :
    ∃ items, generateParameters requestFields = .ok (.seq items) ∧
      items.length = requestFields.length ∧
      ∀ (i : Nat) (hi : i < requestFields.length),
        items[i]? = some (.map [
          ("name", .scalar requestFields[i].fieldName),
          ("in", .scalar requestFields[i].fieldIn),
          ("required", .scalar (encodeBool requestFields[i].required)),
          ("description", .scalar requestFields[i].description),
          ("schema", .map (("type", .scalar "string") ::
            (if requestFields[i].defaultValue = "" then []
             else [("default", .scalar requestFields[i].defaultValue)])))]) := by
  cases requestFields with
  | nil => exact absurd rfl h
  | cons f fs =>
    refine ⟨(f :: fs).map parameterNode, generateParameters_cons f fs, by simp, ?_⟩
    intro i hi
    rw [List.getElem?_map, List.getElem?_eq_getElem hi]
    rfl

/-- Witness of C6: the two request fields of `ordersEndpoint`, one without and
one with a default value. -/
theorem generateParameters_sequence_witness :
    ∃ items, generateParameters ordersEndpoint.requestFields = .ok (.seq items) ∧
      items.length = ordersEndpoint.requestFields.length ∧
      ∀ (i : Nat) (hi : i < ordersEndpoint.requestFields.length),
        items[i]? = some (.map [
          ("name", .scalar ordersEndpoint.requestFields[i].fieldName),
          ("in", .scalar ordersEndpoint.requestFields[i].fieldIn),
          ("required", .scalar (encodeBool ordersEndpoint.requestFields[i].required)),
          ("description", .scalar ordersEndpoint.requestFields[i].description),
          ("schema", .map (("type", .scalar "string") ::
            (if ordersEndpoint.requestFields[i].defaultValue = "" then []
             else [("default", .scalar ordersEndpoint.requestFields[i].defaultValue)])))]) :=
  generateParameters_sequence ordersEndpoint.requestFields (by decide)

/-- C7: for every endpoint for which `describeSelectQuery` succeeds with
`properties`, `generateResponseSchema` returns the object schema whose
properties are exactly `data` (type array, items of type object whose
`properties` is the description unchanged), `next` (type string) and
`total_count` (type integer); and `generatePathItem` places this schema at
`responses["200"].content["application/json"].schema` of the operation. -/
theorem generateResponseSchema_shape (describeSelectQuery : Describe)
    (endpoint : EndpointConfig) (properties : Node)
    (h : describeSelectQuery endpoint = .ok properties) :
    generateResponseSchema describeSelectQuery endpoint
      = .ok (.map [("type", .scalar "object"),
          ("properties", .map [
            ("data", .map [("type", .scalar "array"),
              ("items", .map [("type", .scalar "object"), ("properties", properties)])]),
            ("next", .map [("type", .scalar "string")]),
            ("total_count", .map [("type", .scalar "integer")])])]) ∧
    ∃ pathItem schema,
      generatePathItem describeSelectQuery endpoint = .ok pathItem ∧
      generateResponseSchema describeSelectQuery endpoint = .ok schema ∧
      pathItem.findPath?
          [methodKey endpoint, "responses", "200", "content", "application/json", "schema"]
        = some schema := by
  refine ⟨generateResponseSchema_ok h, _, _, generatePathItem_ok h,
    generateResponseSchema_ok h, ?_⟩
  simp [Node.findPath?, Node.find?, entriesFind, operationNode]

/-- Witness of C7: the schema of `ordersEndpoint` wraps `sampleProperties`. -/
theorem generateResponseSchema_shape_witness :
    generateResponseSchema sampleDescribe ordersEndpoint
      = .ok (.map [("type", .scalar "object"),
          ("properties", .map [
            ("data", .map [("type", .scalar "array"),
              ("items", .map [("type", .scalar "object"), ("properties", sampleProperties)])]),
            ("next", .map [("type", .scalar "string")]),
            ("total_count", .map [("type", .scalar "integer")])])]) ∧
    ∃ pathItem schema,
      generatePathItem sampleDescribe ordersEndpoint = .ok pathItem ∧
      generateResponseSchema sampleDescribe ordersEndpoint = .ok schema ∧
      pathItem.findPath?
          [methodKey ordersEndpoint, "responses", "200", "content", "application/json", "schema"]
        = some schema :=
  generateResponseSchema_shape sampleDescribe ordersEndpoint sampleProperties rfl

/-- C9: for every endpoint whose query is described, the operation contains
the `x-rate-limit` extension if and only if `rate_limit.enabled`, and then its
`max` and `interval` are those of the policy (as yaml-cpp writes an `int`); and
nothing else in the operation depends on the policy: for any other policy (the
collaborator returning the same description) the operation differs at most in
its `x-rate-limit` entry. -/
theorem generatePathItem_rate_limit (describeSelectQuery : Describe)
    (endpoint : EndpointConfig) (properties : Node)
    (h : describeSelectQuery endpoint = .ok properties) :
    ∃ operation,
      generatePathItem describeSelectQuery endpoint
        = .ok (.map [(methodKey endpoint, operation)]) ∧
      operation.find? "x-rate-limit" =
        (if endpoint.rate_limit.enabled then
          some (.map [("max", .scalar (encodeInt endpoint.rate_limit.max)),
            ("interval", .scalar (encodeInt endpoint.rate_limit.interval))])
        else none) ∧
      ∀ policy : RateLimitConfig,
        describeSelectQuery { endpoint with rate_limit := policy } = .ok properties →
        ∃ operation',
          generatePathItem describeSelectQuery { endpoint with rate_limit := policy }
            = .ok (.map [(methodKey endpoint, operation')]) ∧
          operation'.erase "x-rate-limit" = operation.erase "x-rate-limit" := by
  refine ⟨operationNode endpoint properties, generatePathItem_ok h, ?_, ?_⟩
  · cases hrl : endpoint.rate_limit.enabled <;> cases hau : endpoint.auth.enabled <;>
      simp [operationNode, rateLimitEntries, securityEntries, Node.find?, entriesFind, hrl, hau]
  · intro policy hpolicy
    refine ⟨operationNode { endpoint with rate_limit := policy } properties,
      generatePathItem_ok hpolicy, ?_⟩
    cases hrl : endpoint.rate_limit.enabled <;> cases hrl' : policy.enabled <;>
      cases hau : endpoint.auth.enabled <;>
      simp [operationNode, rateLimitEntries, securityEntries, Node.erase, entriesErase, hrl,
        hrl', hau]

/-- Witness of C9: `ordersEndpoint` (limit enabled, 100 per 60) against the
same endpoint with the limit disabled. -/
theorem generatePathItem_rate_limit_witness :
    ∃ operation,
      generatePathItem sampleDescribe ordersEndpoint
        = .ok (.map [(methodKey ordersEndpoint, operation)]) ∧
      operation.find? "x-rate-limit" =
        (if ordersEndpoint.rate_limit.enabled then
          some (.map [("max", .scalar (encodeInt ordersEndpoint.rate_limit.max)),
            ("interval", .scalar (encodeInt ordersEndpoint.rate_limit.interval))])
        else none) ∧
      ∃ operation',
        generatePathItem sampleDescribe
            { ordersEndpoint with rate_limit := { enabled := false, max := 5, interval := 1 } }
          = .ok (.map [(methodKey ordersEndpoint, operation')]) ∧
        operation'.erase "x-rate-limit" = operation.erase "x-rate-limit" := by
  obtain ⟨operation, hitem, hfind, hother⟩ :=
    generatePathItem_rate_limit sampleDescribe ordersEndpoint sampleProperties rfl
  exact ⟨operation, hitem, hfind, hother { enabled := false, max := 5, interval := 1 } rfl⟩

/-! ## C8 and C10: the document -/

/-- C8: for every catalog, the document `generateDoc` returns declares under
`components.securitySchemes` exactly `bearerAuth` (type http, scheme bearer,
bearerFormat JWT, fixed description) and `basicAuth` (type http, scheme basic,
fixed description), whatever the endpoints are; and a document is returned
whenever the description succeeds for every endpoint, in particular for the
empty catalog. -/
theorem generateDoc_securitySchemes (configManager : ConfigManager)
    (describeSelectQuery : Describe) (app : App) :
    (∀ doc, generateDoc configManager describeSelectQuery app = .ok doc →
      doc.findPath? ["components", "securitySchemes"]
        = some (.map [
            ("bearerAuth", .map [("type", .scalar "http"), ("scheme", .scalar "bearer"),
              ("bearerFormat", .scalar "JWT"),
              ("description", .scalar "JWT Authorization header using the Bearer scheme.")]),
            ("basicAuth", .map [("type", .scalar "http"), ("scheme", .scalar "basic"),
              ("description", .scalar "Basic HTTP Authentication")])])) ∧
    (AllDescribed describeSelectQuery configManager.getEndpoints →
      ∃ doc, generateDoc configManager describeSelectQuery app = .ok doc) ∧
    (configManager.getEndpoints = [] →
      ∃ doc, generateDoc configManager describeSelectQuery app = .ok doc) := by
  refine ⟨?_, fun hall => ⟨_, generateDoc_ok configManager app hall⟩, ?_⟩
  · intro doc hdoc
    have hall := allDescribed_of_generateDoc_ok configManager app hdoc
    rw [generateDoc_ok configManager app hall] at hdoc
    injection hdoc with hdoc
    subst hdoc
    simp only [Node.findPath?, docNode_find_components, Node.find?_map, entriesFind, if_true]
    rfl
  · intro hnil
    refine ⟨_, generateDoc_ok configManager app ?_⟩
    intro e he
    rw [hnil] at he
    simp at he

/-- Witness of C8: the empty catalog and a catalog without authentication both
yield a document with the two scheme declarations. -/
theorem generateDoc_securitySchemes_witness :
    (∃ doc, generateDoc (sampleConfig []) sampleDescribe sampleApp = .ok doc ∧
      doc.findPath? ["components", "securitySchemes"]
        = some (.map [
            ("bearerAuth", .map [("type", .scalar "http"), ("scheme", .scalar "bearer"),
              ("bearerFormat", .scalar "JWT"),
              ("description", .scalar "JWT Authorization header using the Bearer scheme.")]),
            ("basicAuth", .map [("type", .scalar "http"), ("scheme", .scalar "basic"),
              ("description", .scalar "Basic HTTP Authentication")])])) ∧
    (∃ doc, generateDoc (sampleConfig [itemsEndpoint]) sampleDescribe sampleApp = .ok doc ∧
      doc.findPath? ["components", "securitySchemes"]
        = some (.map [
            ("bearerAuth", .map [("type", .scalar "http"), ("scheme", .scalar "bearer"),
              ("bearerFormat", .scalar "JWT"),
              ("description", .scalar "JWT Authorization header using the Bearer scheme.")]),
            ("basicAuth", .map [("type", .scalar "http"), ("scheme", .scalar "basic"),
              ("description", .scalar "Basic HTTP Authentication")])])) := by
  obtain ⟨doc₀, h₀⟩ :=
    (generateDoc_securitySchemes (sampleConfig []) sampleDescribe sampleApp).2.2 rfl
  obtain ⟨doc₁, h₁⟩ :=
    (generateDoc_securitySchemes (sampleConfig [itemsEndpoint]) sampleDescribe sampleApp).2.1
      (by decide)
  exact ⟨⟨doc₀, h₀,
      (generateDoc_securitySchemes (sampleConfig []) sampleDescribe sampleApp).1 doc₀ h₀⟩,
    ⟨doc₁, h₁,
      (generateDoc_securitySchemes (sampleConfig [itemsEndpoint]) sampleDescribe sampleApp).1
        doc₁ h₁⟩⟩

/-- C10: for an endpoint with no request fields `generateParameters` returns a
null node, not an empty sequence, and the operation's `parameters` entry is
that null; for an empty catalog `generateDoc` returns a document without a
`paths` key.  For a non-empty field list the node is a sequence, and for a
non-empty catalog (all endpoints described) `paths` is a map. -/
theorem generated_tree_empty_input_shape :
    generateParameters [] = .ok .null ∧
    (∀ (describeSelectQuery : Describe) (endpoint : EndpointConfig) (properties : Node),
      endpoint.requestFields = [] → describeSelectQuery endpoint = .ok properties →
      ∃ operation,
        generatePathItem describeSelectQuery endpoint
          = .ok (.map [(methodKey endpoint, operation)]) ∧
        operation.find? "parameters" = some .null) ∧
    (∀ (configManager : ConfigManager) (describeSelectQuery : Describe) (app : App),
      configManager.getEndpoints = [] →
      ∃ doc, generateDoc configManager describeSelectQuery app = .ok doc ∧
        doc.find? "paths" = none) ∧
    (∀ requestFields : List RequestFieldConfig, requestFields ≠ [] →
      ∃ items, generateParameters requestFields = .ok (.seq items)) ∧
    (∀ (configManager : ConfigManager) (describeSelectQuery : Describe) (app : App),
      configManager.getEndpoints ≠ [] →
      AllDescribed describeSelectQuery configManager.getEndpoints →
      ∃ doc entries, generateDoc configManager describeSelectQuery app = .ok doc ∧
        doc.find? "paths" = some (.map entries)) := by
  refine ⟨rfl, ?_, ?_, ?_, ?_⟩
  · intro describeSelectQuery endpoint properties hfields h
    refine ⟨operationNode endpoint properties, generatePathItem_ok h, ?_⟩
    simp [operationNode, hfields, parametersNode, Node.find?, entriesFind]
  · intro configManager describeSelectQuery app hnil
    have hall : AllDescribed describeSelectQuery configManager.getEndpoints := by
      intro e he
      rw [hnil] at he
      simp at he
    refine ⟨_, generateDoc_ok configManager app hall, ?_⟩
    rw [hnil]
    simp [docNode, headerEntries, Node.find?, entriesFind]
  · intro requestFields hne
    cases requestFields with
    | nil => exact absurd rfl hne
    | cons f fs => exact ⟨_, generateParameters_cons f fs⟩
  · intro configManager describeSelectQuery app hne hall
    cases hends : configManager.getEndpoints with
    | nil => exact absurd hends hne
    | cons e rest =>
      refine ⟨_, pathsEntries describeSelectQuery (e :: rest) [],
        generateDoc_ok configManager app hall, ?_⟩
      rw [hends]
      exact docNode_find_paths configManager describeSelectQuery app e rest

/-- Witness of C10: `itemsEndpoint` has no request fields, so its operation
holds a null `parameters`; the empty catalog gives no `paths`; the fields of
`ordersEndpoint` give a sequence; the catalog `[itemsEndpoint]` gives a `paths`
map. -/
theorem generated_tree_empty_input_shape_witness :
    (∃ operation,
      generatePathItem sampleDescribe itemsEndpoint
        = .ok (.map [(methodKey itemsEndpoint, operation)]) ∧
      operation.find? "parameters" = some .null) ∧
    (∃ doc, generateDoc (sampleConfig []) sampleDescribe sampleApp = .ok doc ∧
      doc.find? "paths" = none) ∧
    (∃ items, generateParameters ordersEndpoint.requestFields = .ok (.seq items)) ∧
    (∃ doc entries, generateDoc (sampleConfig [itemsEndpoint]) sampleDescribe sampleApp = .ok doc ∧
      doc.find? "paths" = some (.map entries)) :=
  ⟨generated_tree_empty_input_shape.2.1 sampleDescribe itemsEndpoint sampleProperties rfl rfl,
   generated_tree_empty_input_shape.2.2.1 (sampleConfig []) sampleDescribe sampleApp rfl,
   generated_tree_empty_input_shape.2.2.2.1 ordersEndpoint.requestFields (by decide),
   generated_tree_empty_input_shape.2.2.2.2 (sampleConfig [itemsEndpoint]) sampleDescribe
     sampleApp (by decide)
     (by decide)⟩

end flapi

